import Mathlib

/-!
Verification of the two Blender texture-unpacking scripts
(`textureUnpacker.py`, variant A, and `textureUnpacker2.py`, variant B).

The scripts are shallowly embedded: paths are lists of characters and the
POSIX path helpers used by the code (`os.path.dirname`, `os.path.basename`,
`os.path.splitext`, `os.path.join`) are translated directly from their
CPython `posixpath` implementations.  Filesystem state, Blender image
datablocks and the host's unpack operator are modelled explicitly where a
claim depends on them.
-/

namespace TexUnpack

/-- A filesystem path, as a list of characters. -/
abbrev Path := List Char

/-- Embed a string literal as a `Path`. -/
def pstr (s : String) : Path := s.data

/-- `os.path.basename p`: the part of `p` after the last `'/'`
(`posixpath.basename`: `p[p.rfind('/') + 1:]`). -/
def basenameL (p : Path) : Path := (p.reverse.takeWhile (fun c => c != '/')).reverse

/-- `os.path.dirname p` (`posixpath.dirname`): everything up to and including
the last `'/'`, with trailing slashes stripped unless the result is all
slashes. -/
def dirnameL (p : Path) : Path :=
  let head := (p.reverse.dropWhile (fun c => c != '/')).reverse
  if head ≠ [] ∧ ¬ (head.all (fun c => c == '/')) then
    (head.reverse.dropWhile (fun c => c == '/')).reverse
  else head

/-- `os.path.splitext b` for a path with no directory separator (the scripts
only apply it to `os.path.basename` results): split at the last dot, except
that a dot preceded only by dots is not an extension separator
(`posixpath.splitext`). -/
def splitextCore (b : Path) : Path × Path :=
  let r := b.reverse
  let e := r.takeWhile (fun c => c != '.')
  match r.dropWhile (fun c => c != '.') with
  | [] => (b, [])
  | c :: rs =>
    let root := rs.reverse
    if root.all (fun x => x == '.') then (b, []) else (root, c :: e.reverse)

/-- `os.path.join a b` (`posixpath.join` with two components). -/
def joinL (a b : Path) : Path :=
  if b.head? = some '/' then b
  else if a = [] then a ++ b
  else if a.reverse.head? = some '/' then a ++ b
  else a ++ '/' :: b

/-- `str.lower`, restricted to ASCII case mapping (all path constants the
scripts compare against are ASCII). -/
def lowerP (p : Path) : Path := p.map Char.toLower

/-- The output extension variant A uses: the input's own extension when it is
already `.fbx` case-insensitively, else the forced literal `".fbx"`
(`textureUnpacker.py` lines 16-21). -/
def extUsed (p : Path) : Path :=
  if lowerP (splitextCore (basenameL p)).2 = pstr ".fbx" then
    (splitextCore (basenameL p)).2
  else pstr ".fbx"

/-- Variant A's derived output path (`textureUnpacker.py` lines 14-24):
`os.path.join(input_dir, f"{name_root}_noTextures{name_ext}")`. -/
def deriveOutPath (p : Path) : Path :=
  joinL (dirnameL p) ((splitextCore (basenameL p)).1 ++ pstr "_noTextures" ++ extUsed p)

/-! ### List helper lemmas -/

theorem tu_takeWhile_all {α : Type} {p : α → Bool} :
    ∀ (l : List α), (∀ a ∈ l, p a = true) → l.takeWhile p = l := by
  intro l
  induction l with
  | nil => intro _; rfl
  | cons a t ih =>
    intro h
    have ha : p a = true := h a (List.mem_cons_self a t)
    simp [List.takeWhile, ha, ih fun b hb => h b (List.mem_cons_of_mem a hb)]

theorem tu_takeWhile_append_stop {α : Type} {p : α → Bool} :
    ∀ (l : List α) (x : α) (r : List α), (∀ a ∈ l, p a = true) → p x = false →
      (l ++ x :: r).takeWhile p = l := by
  intro l
  induction l with
  | nil =>
    intro x r _ hx
    simp [List.takeWhile, hx]
  | cons a t ih =>
    intro x r h hx
    have ha : p a = true := h a (List.mem_cons_self a t)
    simp [List.takeWhile, ha]
    exact ih x r (fun b hb => h b (List.mem_cons_of_mem a hb)) hx

theorem tu_dropWhile_head_false {α : Type} {p : α → Bool} :
    ∀ (l : List α) (c : α) (cs : List α), l.dropWhile p = c :: cs → p c = false := by
  intro l
  induction l with
  | nil => intro c cs h; simp [List.dropWhile] at h
  | cons a t ih =>
    intro c cs h
    by_cases ha : p a = true
    · rw [List.dropWhile_cons_of_pos ha] at h
      exact ih c cs h
    · have ha' : p a = false := by
        cases hpa : p a
        · rfl
        · exact absurd hpa ha
      rw [List.dropWhile_cons_of_neg (by simp [ha'])] at h
      cases h
      exact ha'

theorem tu_mem_takeWhile {α : Type} {p : α → Bool} :
    ∀ (l : List α) (a : α), a ∈ l.takeWhile p → p a = true := by
  intro l
  induction l with
  | nil => intro a h; simp [List.takeWhile] at h
  | cons b t ih =>
    intro a h
    by_cases hb : p b = true
    · rw [List.takeWhile_cons_of_pos hb] at h
      rcases List.mem_cons.mp h with h1 | h2
      · rwa [h1]
      · exact ih a h2
    · have hb' : p b = false := by
        cases hpb : p b
        · rfl
        · exact absurd hpb hb
      rw [List.takeWhile_cons_of_neg (by simp [hb'])] at h
      simp at h

/-! ### Properties of the path helpers -/

/-- `basenameL` contains no slash. -/
theorem no_slash_basenameL (p : Path) : '/' ∉ basenameL p := by
  intro hmem
  have h1 : '/' ∈ p.reverse.takeWhile (fun c => c != '/') := by
    have := List.mem_reverse.mp hmem
    exact this
  have h2 := tu_mem_takeWhile (p := fun c => c != '/') p.reverse '/' h1
  simp at h2

/-- On a slash-free path, `basenameL` is the identity. -/
theorem basenameL_of_no_slash (s : Path) (hs : '/' ∉ s) : basenameL s = s := by
  unfold basenameL
  rw [tu_takeWhile_all s.reverse]
  · exact List.reverse_reverse s
  · intro a ha
    have : a ∈ s := List.mem_reverse.mp ha
    have hne : a ≠ '/' := fun h => hs (h ▸ this)
    simp [hne]

/-- The basename of `d ++ '/' :: s` is `s` whenever `s` is slash-free. -/
theorem basenameL_append_slash (d s : Path) (hs : '/' ∉ s) :
    basenameL (d ++ '/' :: s) = s := by
  unfold basenameL
  have hrev : (d ++ '/' :: s).reverse = s.reverse ++ '/' :: d.reverse := by
    simp [List.reverse_append]
  rw [hrev, tu_takeWhile_append_stop s.reverse '/' d.reverse]
  · exact List.reverse_reverse s
  · intro a ha
    have : a ∈ s := List.mem_reverse.mp ha
    have hne : a ≠ '/' := fun h => hs (h ▸ this)
    simp [hne]
  · simp

/-- The basename of `joinL d s` is `s` whenever `s` is slash-free and
non-empty. -/
theorem basenameL_joinL (d s : Path) (hs : '/' ∉ s) (hne : s ≠ []) :
    basenameL (joinL d s) = s := by
  unfold joinL
  have hhead : s.head? ≠ some '/' := by
    cases s with
    | nil => simp
    | cons c t =>
      simp only [List.head?]
      intro h
      cases h
      exact hs (List.mem_cons_self '/' t)
  rw [if_neg hhead]
  by_cases hd : d = []
  · rw [if_pos hd, hd]
    simpa using basenameL_of_no_slash s hs
  · rw [if_neg hd]
    by_cases hlast : d.reverse.head? = some '/'
    · rw [if_pos hlast]
      rcases hrev : d.reverse with _ | ⟨c, e⟩
      · exact absurd (by simpa using congrArg List.reverse hrev) hd
      · rw [hrev] at hlast
        simp only [List.head?] at hlast
        cases hlast
        have hdec : d = e.reverse ++ ['/'] := by
          have := congrArg List.reverse hrev
          simpa using this
        rw [hdec, List.append_assoc]
        simpa using basenameL_append_slash e.reverse s hs
    · rw [if_neg hlast]
      exact basenameL_append_slash d s hs

/-- `splitextCore` splits its argument: root ++ ext = input. -/
theorem splitext_append (b : Path) :
    (splitextCore b).1 ++ (splitextCore b).2 = b := by
  rcases hdrop : b.reverse.dropWhile (fun c => c != '.') with _ | ⟨c, rs⟩
  · simp [splitextCore, hdrop]
  · by_cases hall : rs.reverse.all (fun x => x == '.') = true
    · simp [splitextCore, hdrop, hall]
    · have hsplit : b.reverse.takeWhile (fun c => c != '.') ++ (c :: rs) =
          b.reverse := by
        rw [← hdrop]
        exact List.takeWhile_append_dropWhile _ _
      have hb : b = rs.reverse ++ c :: (b.reverse.takeWhile (fun c => c != '.')).reverse := by
        have h2 := congrArg List.reverse hsplit
        simpa [List.reverse_append] using h2.symm
      simp only [splitextCore, hdrop]
      rw [if_neg hall]
      exact hb.symm

/-- The extension produced by `splitextCore` is empty or starts with a dot. -/
theorem splitext_ext_shape (b : Path) :
    (splitextCore b).2 = [] ∨ ∃ t, (splitextCore b).2 = '.' :: t := by
  rcases hdrop : b.reverse.dropWhile (fun c => c != '.') with _ | ⟨c, rs⟩
  · left; simp [splitextCore, hdrop]
  · have hc : (c != '.') = false := tu_dropWhile_head_false b.reverse c rs hdrop
    have hc' : c = '.' := by simpa using hc
    by_cases hall : rs.reverse.all (fun x => x == '.') = true
    · left; simp [splitextCore, hdrop, hall]
    · right
      refine ⟨(b.reverse.takeWhile (fun c => c != '.')).reverse, ?_⟩
      simp only [splitextCore, hdrop]
      rw [if_neg hall, hc']

/-- Slash-freeness transfers through `splitext_append` to the root. -/
theorem no_slash_splitext_root (p : Path) : '/' ∉ (splitextCore (basenameL p)).1 := by
  intro h
  apply no_slash_basenameL p
  rw [← splitext_append (basenameL p)]
  exact List.mem_append.mpr (Or.inl h)

/-- Slash-freeness transfers through `splitext_append` to the extension. -/
theorem no_slash_splitext_ext (p : Path) : '/' ∉ (splitextCore (basenameL p)).2 := by
  intro h
  apply no_slash_basenameL p
  rw [← splitext_append (basenameL p)]
  exact List.mem_append.mpr (Or.inr h)

/-- `extUsed` contains no slash. -/
theorem no_slash_extUsed (p : Path) : '/' ∉ extUsed p := by
  unfold extUsed
  by_cases h : lowerP (splitextCore (basenameL p)).2 = pstr ".fbx"
  · rw [if_pos h]; exact no_slash_splitext_ext p
  · rw [if_neg h]; decide

/-- The filename part of variant A's derived output path. -/
theorem basenameL_deriveOut (p : Path) :
    basenameL (deriveOutPath p) =
      (splitextCore (basenameL p)).1 ++ pstr "_noTextures" ++ extUsed p := by
  unfold deriveOutPath
  apply basenameL_joinL
  · intro h
    rcases List.mem_append.mp h with h1 | h2
    · rcases List.mem_append.mp h1 with h3 | h4
      · exact no_slash_splitext_root p h3
      · simp [pstr] at h4
    · exact no_slash_extUsed p h2
  · intro h
    have : ((splitextCore (basenameL p)).1 ++ pstr "_noTextures") = [] ∧
        extUsed p = [] := List.append_eq_nil.mp h
    have h2 := List.append_eq_nil.mp this.1
    have : pstr "_noTextures" = ([] : Path) := h2.2
    simp [pstr] at this

/-- The extension variant A writes is `.fbx` up to ASCII case. -/
theorem lowerP_extUsed (p : Path) : lowerP (extUsed p) = pstr ".fbx" := by
  unfold extUsed
  by_cases h : lowerP (splitextCore (basenameL p)).2 = pstr ".fbx"
  · rw [if_pos h]; exact h
  · rw [if_neg h]; decide

/-- Variant A's derived output path never equals its input: the output's
filename would have to equal the input's, forcing the splitext extension to
begin with `'_'`, while a splitext extension is empty or begins with `'.'`. -/
theorem deriveOut_ne (p : Path) : deriveOutPath p ≠ p := by
  intro h
  have hb := basenameL_deriveOut p
  rw [h] at hb
  have hsp := splitext_append (basenameL p)
  have hcomb := hsp.trans hb
  rw [List.append_assoc] at hcomb
  have hcancel := List.append_cancel_left hcomb
  rcases splitext_ext_shape (basenameL p) with hnil | ⟨t, ht⟩
  · rw [hnil] at hcancel
    have := (List.append_eq_nil.mp hcancel.symm).1
    simp [pstr] at this
  · rw [ht] at hcancel
    have hnt : pstr "_noTextures" ++ extUsed p =
        '_' :: (pstr "noTextures" ++ extUsed p) := by
      simp [pstr]
    rw [hnt] at hcancel
    have : '.' = '_' := (List.cons.injEq _ _ _ _ ▸ hcancel).1
    exact absurd this (by decide)

/-! ### Session data model

A Blender image datablock, reduced to the fields the scripts inspect:
`img.name`, `img.packed_file` (modelled as the boolean "has a packed file"),
`img.source`, and `img.filepath`. -/

structure Image where
  name : String
  packed : Bool
  source : String
  filepath : Path
deriving DecidableEq, Repr

/-- A Blender library datablock (variant A also inventories
`bpy.data.libraries` entries with a packed file). -/
structure LibA where
  name : String
  packed : Bool
deriving DecidableEq, Repr

/-- `bpy.data.images.get(name)`: look an image up by name. -/
def lookupImg (imgs : List Image) (n : String) : Option Image :=
  imgs.find? (fun i => i.name == n)

/-- The unpacked-confirmed test of `textureUnpacker2.py` line 117:
`not img.packed_file and img.source == 'FILE' and img.filepath`. -/
def confirmedCond (img : Image) : Bool :=
  !img.packed && img.source == "FILE" && !img.filepath.isEmpty

/-- The three classes a *present* inventory image falls into in variant B's
post-unpack scan (lines 117, 167, 171 of `textureUnpacker2.py`); a name
with no surviving image is the fourth class, *missing* (lines 179-184). -/
inductive RClass where
  | unpackedConfirmed
  | stillPacked
  | anomalous
deriving DecidableEq, Repr

/-- Branch selection of variant B's per-image scan. -/
def classifyImg (img : Image) : RClass :=
  if confirmedCond img then .unpackedConfirmed
  else if img.packed then .stillPacked
  else .anomalous

/-- Output collections of variant B's post-unpack scan, restricted to the
classification (lines 112-184 of `textureUnpacker2.py`): which inventory
names were seen and into which class each fell. -/
structure ReconB where
  confirmed : List String
  stillPacked : List String
  anomalous : List String
  processed : List String
deriving DecidableEq, Repr

/-- One iteration of variant B's `for img in bpy.data.images` scan
(classification skeleton of lines 112-175): images whose name is not in the
pre-unpack inventory are skipped; the rest are recorded as processed and
classified by the branch at lines 117/167/171. -/
def reconStepB (inv : List String) (acc : ReconB) (img : Image) : ReconB :=
  if img.name ∈ inv then
    match classifyImg img with
    | .unpackedConfirmed =>
      { acc with processed := acc.processed ++ [img.name],
                 confirmed := acc.confirmed ++ [img.name] }
    | .stillPacked =>
      { acc with processed := acc.processed ++ [img.name],
                 stillPacked := acc.stillPacked ++ [img.name] }
    | .anomalous =>
      { acc with processed := acc.processed ++ [img.name],
                 anomalous := acc.anomalous ++ [img.name] }
  else acc

/-- Variant B's whole classification scan. -/
def reconB (inv : List String) (imgs : List Image) : ReconB :=
  imgs.foldl (reconStepB inv) ⟨[], [], [], []⟩

/-- `missing_after_unpack = original_packed_names - processed_packed_names`
(`textureUnpacker2.py` lines 179-180). -/
def missingB (inv : List String) (imgs : List Image) : List String :=
  inv.filter (fun n => !(reconB inv imgs).processed.contains n)

/-- Output of variant A's post-unpack verification loop
(`textureUnpacker.py` lines 94-109): names verified as unpacked (printed at
line 99 and counted), and names reported still packed.  The loop inspects
only `packed_images_before`; there is no branch for a vanished image and no
branch for an unpacked image whose source is not `'FILE'`. -/
structure ReconA where
  verified : List String
  unpackedCount : Nat
  stillPacked : List String
deriving DecidableEq, Repr

/-- One iteration of variant A's `for img_name in packed_images_before`
loop (`textureUnpacker.py` lines 96-102). -/
def reconStepA (imgs : List Image) (acc : ReconA) (n : String) : ReconA :=
  match lookupImg imgs n with
  | some img =>
    if !img.packed && img.source == "FILE" then
      { acc with verified := acc.verified ++ [n],
                 unpackedCount := acc.unpackedCount + 1 }
    else if img.packed then
      { acc with stillPacked := acc.stillPacked ++ [n] }
    else acc
  | none => acc

/-- Variant A's whole verification loop over the image inventory. -/
def reconA (imgs : List Image) (invImgs : List String) : ReconA :=
  invImgs.foldl (reconStepA imgs) ⟨[], 0, []⟩

/-! ### Membership characterizations of the two loops -/

theorem reconStepB_confirmed (inv : List String) (acc : ReconB) (img : Image) (n : String) :
    n ∈ (reconStepB inv acc img).confirmed ↔
      n ∈ acc.confirmed ∨
        (img.name ∈ inv ∧ img.name = n ∧ classifyImg img = RClass.unpackedConfirmed) := by
  by_cases hi : img.name ∈ inv
  · rcases hc : classifyImg img with _ | _ | _ <;>
      simp [reconStepB, hi, hc, List.mem_append, eq_comm]
  · simp [reconStepB, hi]

theorem reconStepB_stillPacked (inv : List String) (acc : ReconB) (img : Image) (n : String) :
    n ∈ (reconStepB inv acc img).stillPacked ↔
      n ∈ acc.stillPacked ∨
        (img.name ∈ inv ∧ img.name = n ∧ classifyImg img = RClass.stillPacked) := by
  by_cases hi : img.name ∈ inv
  · rcases hc : classifyImg img with _ | _ | _ <;>
      simp [reconStepB, hi, hc, List.mem_append, eq_comm]
  · simp [reconStepB, hi]

theorem reconStepB_anomalous (inv : List String) (acc : ReconB) (img : Image) (n : String) :
    n ∈ (reconStepB inv acc img).anomalous ↔
      n ∈ acc.anomalous ∨
        (img.name ∈ inv ∧ img.name = n ∧ classifyImg img = RClass.anomalous) := by
  by_cases hi : img.name ∈ inv
  · rcases hc : classifyImg img with _ | _ | _ <;>
      simp [reconStepB, hi, hc, List.mem_append, eq_comm]
  · simp [reconStepB, hi]

theorem reconStepB_processed (inv : List String) (acc : ReconB) (img : Image) (n : String) :
    n ∈ (reconStepB inv acc img).processed ↔
      n ∈ acc.processed ∨ (img.name ∈ inv ∧ img.name = n) := by
  by_cases hi : img.name ∈ inv
  · rcases hc : classifyImg img with _ | _ | _ <;>
      simp [reconStepB, hi, hc, List.mem_append, eq_comm]
  · simp [reconStepB, hi]

theorem reconB_foldl_confirmed (inv : List String) :
    ∀ (imgs : List Image) (acc : ReconB) (n : String),
      n ∈ (List.foldl (reconStepB inv) acc imgs).confirmed ↔
        n ∈ acc.confirmed ∨ ∃ img, img ∈ imgs ∧ img.name ∈ inv ∧ img.name = n ∧
          classifyImg img = RClass.unpackedConfirmed := by
  intro imgs
  induction imgs with
  | nil => intro acc n; simp
  | cons img rest ih =>
    intro acc n
    rw [List.foldl_cons, ih, reconStepB_confirmed]
    simp only [List.mem_cons]
    constructor
    · rintro ((h | h) | ⟨i, hi, h⟩)
      · exact Or.inl h
      · exact Or.inr ⟨img, Or.inl rfl, h⟩
      · exact Or.inr ⟨i, Or.inr hi, h⟩
    · rintro (h | ⟨i, hi | hi, h⟩)
      · exact Or.inl (Or.inl h)
      · exact Or.inl (Or.inr (hi ▸ h))
      · exact Or.inr ⟨i, hi, h⟩

theorem reconB_foldl_stillPacked (inv : List String) :
    ∀ (imgs : List Image) (acc : ReconB) (n : String),
      n ∈ (List.foldl (reconStepB inv) acc imgs).stillPacked ↔
        n ∈ acc.stillPacked ∨ ∃ img, img ∈ imgs ∧ img.name ∈ inv ∧ img.name = n ∧
          classifyImg img = RClass.stillPacked := by
  intro imgs
  induction imgs with
  | nil => intro acc n; simp
  | cons img rest ih =>
    intro acc n
    rw [List.foldl_cons, ih, reconStepB_stillPacked]
    simp only [List.mem_cons]
    constructor
    · rintro ((h | h) | ⟨i, hi, h⟩)
      · exact Or.inl h
      · exact Or.inr ⟨img, Or.inl rfl, h⟩
      · exact Or.inr ⟨i, Or.inr hi, h⟩
    · rintro (h | ⟨i, hi | hi, h⟩)
      · exact Or.inl (Or.inl h)
      · exact Or.inl (Or.inr (hi ▸ h))
      · exact Or.inr ⟨i, hi, h⟩

theorem reconB_foldl_anomalous (inv : List String) :
    ∀ (imgs : List Image) (acc : ReconB) (n : String),
      n ∈ (List.foldl (reconStepB inv) acc imgs).anomalous ↔
        n ∈ acc.anomalous ∨ ∃ img, img ∈ imgs ∧ img.name ∈ inv ∧ img.name = n ∧
          classifyImg img = RClass.anomalous := by
  intro imgs
  induction imgs with
  | nil => intro acc n; simp
  | cons img rest ih =>
    intro acc n
    rw [List.foldl_cons, ih, reconStepB_anomalous]
    simp only [List.mem_cons]
    constructor
    · rintro ((h | h) | ⟨i, hi, h⟩)
      · exact Or.inl h
      · exact Or.inr ⟨img, Or.inl rfl, h⟩
      · exact Or.inr ⟨i, Or.inr hi, h⟩
    · rintro (h | ⟨i, hi | hi, h⟩)
      · exact Or.inl (Or.inl h)
      · exact Or.inl (Or.inr (hi ▸ h))
      · exact Or.inr ⟨i, hi, h⟩

theorem reconB_foldl_processed (inv : List String) :
    ∀ (imgs : List Image) (acc : ReconB) (n : String),
      n ∈ (List.foldl (reconStepB inv) acc imgs).processed ↔
        n ∈ acc.processed ∨ ∃ img, img ∈ imgs ∧ img.name ∈ inv ∧ img.name = n := by
  intro imgs
  induction imgs with
  | nil => intro acc n; simp
  | cons img rest ih =>
    intro acc n
    rw [List.foldl_cons, ih, reconStepB_processed]
    simp only [List.mem_cons]
    constructor
    · rintro ((h | h) | ⟨i, hi, h⟩)
      · exact Or.inl h
      · exact Or.inr ⟨img, Or.inl rfl, h⟩
      · exact Or.inr ⟨i, Or.inr hi, h⟩
    · rintro (h | ⟨i, hi | hi, h⟩)
      · exact Or.inl (Or.inl h)
      · exact Or.inl (Or.inr (hi ▸ h))
      · exact Or.inr ⟨i, hi, h⟩

theorem reconB_confirmed_iff (inv : List String) (imgs : List Image) (n : String) :
    n ∈ (reconB inv imgs).confirmed ↔
      ∃ img, img ∈ imgs ∧ img.name ∈ inv ∧ img.name = n ∧
        classifyImg img = RClass.unpackedConfirmed := by
  unfold reconB
  rw [reconB_foldl_confirmed]
  simp

theorem reconB_stillPacked_iff (inv : List String) (imgs : List Image) (n : String) :
    n ∈ (reconB inv imgs).stillPacked ↔
      ∃ img, img ∈ imgs ∧ img.name ∈ inv ∧ img.name = n ∧
        classifyImg img = RClass.stillPacked := by
  unfold reconB
  rw [reconB_foldl_stillPacked]
  simp

theorem reconB_anomalous_iff (inv : List String) (imgs : List Image) (n : String) :
    n ∈ (reconB inv imgs).anomalous ↔
      ∃ img, img ∈ imgs ∧ img.name ∈ inv ∧ img.name = n ∧
        classifyImg img = RClass.anomalous := by
  unfold reconB
  rw [reconB_foldl_anomalous]
  simp

theorem reconB_processed_iff (inv : List String) (imgs : List Image) (n : String) :
    n ∈ (reconB inv imgs).processed ↔
      ∃ img, img ∈ imgs ∧ img.name ∈ inv ∧ img.name = n := by
  unfold reconB
  rw [reconB_foldl_processed]
  simp

theorem missingB_iff (inv : List String) (imgs : List Image) (n : String) :
    n ∈ missingB inv imgs ↔
      n ∈ inv ∧ ¬ ∃ img, img ∈ imgs ∧ img.name ∈ inv ∧ img.name = n := by
  unfold missingB
  rw [List.mem_filter]
  constructor
  · rintro ⟨h1, h2⟩
    refine ⟨h1, ?_⟩
    intro hex
    have := (reconB_processed_iff inv imgs n).mpr hex
    simp at h2
    exact h2 this
  · rintro ⟨h1, h2⟩
    refine ⟨h1, ?_⟩
    simp
    intro hmem
    exact h2 ((reconB_processed_iff inv imgs n).mp hmem)

theorem reconStepA_verified (imgs : List Image) (acc : ReconA) (m n : String) :
    n ∈ (reconStepA imgs acc m).verified ↔
      n ∈ acc.verified ∨ (n = m ∧ ∃ img, lookupImg imgs m = some img ∧
        (!img.packed && img.source == "FILE") = true) := by
  rcases hl : lookupImg imgs m with _ | img
  · simp [reconStepA, hl]
  · cases hpk : img.packed
    · by_cases hsrc : img.source = "FILE"
      · simp [reconStepA, hl, hpk, hsrc, List.mem_append]
      · simp [reconStepA, hl, hpk, hsrc]
    · simp [reconStepA, hl, hpk]

theorem reconStepA_stillPacked (imgs : List Image) (acc : ReconA) (m n : String) :
    n ∈ (reconStepA imgs acc m).stillPacked ↔
      n ∈ acc.stillPacked ∨ (n = m ∧ ∃ img, lookupImg imgs m = some img ∧
        img.packed = true) := by
  rcases hl : lookupImg imgs m with _ | img
  · simp [reconStepA, hl]
  · cases hpk : img.packed
    · by_cases hsrc : img.source = "FILE"
      · simp [reconStepA, hl, hpk, hsrc]
      · simp [reconStepA, hl, hpk, hsrc]
    · simp [reconStepA, hl, hpk, List.mem_append]

theorem reconA_foldl_verified (imgs : List Image) :
    ∀ (names : List String) (acc : ReconA) (n : String),
      n ∈ (List.foldl (reconStepA imgs) acc names).verified ↔
        n ∈ acc.verified ∨ (n ∈ names ∧ ∃ img, lookupImg imgs n = some img ∧
          (!img.packed && img.source == "FILE") = true) := by
  intro names
  induction names with
  | nil => intro acc n; simp
  | cons m rest ih =>
    intro acc n
    rw [List.foldl_cons, ih, reconStepA_verified]
    simp only [List.mem_cons]
    constructor
    · rintro ((h | ⟨hmn, hP⟩) | ⟨hr, hP⟩)
      · exact Or.inl h
      · exact Or.inr ⟨Or.inl hmn, hmn ▸ hP⟩
      · exact Or.inr ⟨Or.inr hr, hP⟩
    · rintro (h | ⟨hnm | hr, hP⟩)
      · exact Or.inl (Or.inl h)
      · exact Or.inl (Or.inr ⟨hnm, hnm ▸ hP⟩)
      · exact Or.inr ⟨hr, hP⟩

theorem reconA_foldl_stillPacked (imgs : List Image) :
    ∀ (names : List String) (acc : ReconA) (n : String),
      n ∈ (List.foldl (reconStepA imgs) acc names).stillPacked ↔
        n ∈ acc.stillPacked ∨ (n ∈ names ∧ ∃ img, lookupImg imgs n = some img ∧
          img.packed = true) := by
  intro names
  induction names with
  | nil => intro acc n; simp
  | cons m rest ih =>
    intro acc n
    rw [List.foldl_cons, ih, reconStepA_stillPacked]
    simp only [List.mem_cons]
    constructor
    · rintro ((h | ⟨hmn, hP⟩) | ⟨hr, hP⟩)
      · exact Or.inl h
      · exact Or.inr ⟨Or.inl hmn, hmn ▸ hP⟩
      · exact Or.inr ⟨Or.inr hr, hP⟩
    · rintro (h | ⟨hnm | hr, hP⟩)
      · exact Or.inl (Or.inl h)
      · exact Or.inl (Or.inr ⟨hnm, hnm ▸ hP⟩)
      · exact Or.inr ⟨hr, hP⟩

theorem reconA_verified_iff (imgs : List Image) (names : List String) (n : String) :
    n ∈ (reconA imgs names).verified ↔
      n ∈ names ∧ ∃ img, lookupImg imgs n = some img ∧
        (!img.packed && img.source == "FILE") = true := by
  unfold reconA
  rw [reconA_foldl_verified]
  simp

theorem reconA_stillPacked_iff (imgs : List Image) (names : List String) (n : String) :
    n ∈ (reconA imgs names).stillPacked ↔
      n ∈ names ∧ ∃ img, lookupImg imgs n = some img ∧ img.packed = true := by
  unfold reconA
  rw [reconA_foldl_stillPacked]
  simp

/-! ### Claim C1: variant B's reconciliation classes partition the
inventory -/

/-- C1.  For every asset name recorded in the pre-unpack inventory of
variant B, the post-unpack reconciliation (`textureUnpacker2.py` lines
112-184) assigns it exactly one of the four classes unpacked-confirmed
(branch at line 117: no packed file, `source == 'FILE'`, non-empty
filepath), still-packed (line 167), anomalous (line 171), or missing
(lines 179-184: name no longer among the session's images): the classes
are exhaustive and mutually exclusive over the inventory.  Blender image
names are unique within `bpy.data.images`, captured by the `Nodup`
hypothesis. -/
theorem c1_reconciliation_partition (inv : List String) (imgs : List Image)
    (hnd : (imgs.map Image.name).Nodup) :
    ∀ n ∈ inv,
      (n ∈ (reconB inv imgs).confirmed ∨ n ∈ (reconB inv imgs).stillPacked ∨
       n ∈ (reconB inv imgs).anomalous ∨ n ∈ missingB inv imgs) ∧
      ¬ (n ∈ (reconB inv imgs).confirmed ∧ n ∈ (reconB inv imgs).stillPacked) ∧
      ¬ (n ∈ (reconB inv imgs).confirmed ∧ n ∈ (reconB inv imgs).anomalous) ∧
      ¬ (n ∈ (reconB inv imgs).confirmed ∧ n ∈ missingB inv imgs) ∧
      ¬ (n ∈ (reconB inv imgs).stillPacked ∧ n ∈ (reconB inv imgs).anomalous) ∧
      ¬ (n ∈ (reconB inv imgs).stillPacked ∧ n ∈ missingB inv imgs) ∧
      ¬ (n ∈ (reconB inv imgs).anomalous ∧ n ∈ missingB inv imgs) := by
  intro n hn
  by_cases hex : ∃ img, img ∈ imgs ∧ img.name ∈ inv ∧ img.name = n
  · obtain ⟨img0, h1, h2, h3⟩ := hex
    have hc1 : n ∈ (reconB inv imgs).confirmed ↔
        classifyImg img0 = RClass.unpackedConfirmed := by
      rw [reconB_confirmed_iff]
      constructor
      · rintro ⟨i, hi, _, hn', hcl⟩
        have : i = img0 :=
          List.inj_on_of_nodup_map hnd hi h1 (by rw [hn', h3])
        rw [← this]
        exact hcl
      · intro h
        exact ⟨img0, h1, h2, h3, h⟩
    have hc2 : n ∈ (reconB inv imgs).stillPacked ↔
        classifyImg img0 = RClass.stillPacked := by
      rw [reconB_stillPacked_iff]
      constructor
      · rintro ⟨i, hi, _, hn', hcl⟩
        have : i = img0 :=
          List.inj_on_of_nodup_map hnd hi h1 (by rw [hn', h3])
        rw [← this]
        exact hcl
      · intro h
        exact ⟨img0, h1, h2, h3, h⟩
    have hc3 : n ∈ (reconB inv imgs).anomalous ↔
        classifyImg img0 = RClass.anomalous := by
      rw [reconB_anomalous_iff]
      constructor
      · rintro ⟨i, hi, _, hn', hcl⟩
        have : i = img0 :=
          List.inj_on_of_nodup_map hnd hi h1 (by rw [hn', h3])
        rw [← this]
        exact hcl
      · intro h
        exact ⟨img0, h1, h2, h3, h⟩
    have hm : n ∉ missingB inv imgs := by
      rw [missingB_iff]
      rintro ⟨_, hno⟩
      exact hno ⟨img0, h1, h2, h3⟩
    rcases hcimg : classifyImg img0 with _ | _ | _ <;>
      refine ⟨?_, ?_, ?_, ?_, ?_, ?_, ?_⟩ <;>
        simp [hc1, hc2, hc3, hcimg, hm]
  · have k1 : n ∉ (reconB inv imgs).confirmed := by
      rw [reconB_confirmed_iff]
      rintro ⟨i, a, b, c, _⟩
      exact hex ⟨i, a, b, c⟩
    have k2 : n ∉ (reconB inv imgs).stillPacked := by
      rw [reconB_stillPacked_iff]
      rintro ⟨i, a, b, c, _⟩
      exact hex ⟨i, a, b, c⟩
    have k3 : n ∉ (reconB inv imgs).anomalous := by
      rw [reconB_anomalous_iff]
      rintro ⟨i, a, b, c, _⟩
      exact hex ⟨i, a, b, c⟩
    have km : n ∈ missingB inv imgs := (missingB_iff inv imgs n).mpr ⟨hn, hex⟩
    exact ⟨Or.inr (Or.inr (Or.inr km)),
      fun h => k1 h.1, fun h => k1 h.1, fun h => k1 h.1,
      fun h => k2 h.1, fun h => k2 h.1, fun h => k3 h.1⟩

/-- Witness for C1 at a concrete session exercising all four classes:
image "a" is unpacked-confirmed, "b" still packed, "c" anomalous (unpacked
but source not `'FILE'`), and "d" has vanished. -/
theorem c1_reconciliation_partition_witness :
    "a" ∈ (reconB ["a", "b", "c", "d"]
      [⟨"a", false, "FILE", pstr "/tmp/a.png"⟩,
       ⟨"b", true, "FILE", pstr ""⟩,
       ⟨"c", false, "GENERATED", pstr ""⟩]).confirmed ∧
    "d" ∈ missingB ["a", "b", "c", "d"]
      [⟨"a", false, "FILE", pstr "/tmp/a.png"⟩,
       ⟨"b", true, "FILE", pstr ""⟩,
       ⟨"c", false, "GENERATED", pstr ""⟩] := by
  have h1 := c1_reconciliation_partition ["a", "b", "c", "d"]
    [⟨"a", false, "FILE", pstr "/tmp/a.png"⟩,
     ⟨"b", true, "FILE", pstr ""⟩,
     ⟨"c", false, "GENERATED", pstr ""⟩] (by decide) "a" (by decide)
  have h4 := c1_reconciliation_partition ["a", "b", "c", "d"]
    [⟨"a", false, "FILE", pstr "/tmp/a.png"⟩,
     ⟨"b", true, "FILE", pstr ""⟩,
     ⟨"c", false, "GENERATED", pstr ""⟩] (by decide) "d" (by decide)
  rcases h1.1 with h | h | h | h
  · rcases h4.1 with g | g | g | g
    · exact absurd g (by decide)
    · exact absurd g (by decide)
    · exact absurd g (by decide)
    · exact ⟨h, g⟩
  · exact absurd h (by decide)
  · exact absurd h (by decide)
  · exact absurd h (by decide)

/-! ### Exceptions raised by the host's unpack operator, and the two
scripts' handlers around `bpy.ops.file.unpack_all` -/

/-- A Python exception as the handlers discriminate it: either a
`RuntimeError` (with its message) or any other exception. -/
inductive Exc where
  | runtimeError (msg : String)
  | otherExc (msg : String)
deriving DecidableEq, Repr

/-- Does the second list start with the first? -/
def listStartsWith : List Char → List Char → Bool
  | [], _ => true
  | _ :: _, [] => false
  | a :: as, b :: bs => a == b && listStartsWith as bs

/-- Is the first list a contiguous sublist of the second? -/
def listHasSub (sub : List Char) : List Char → Bool
  | [] => sub.isEmpty
  | c :: rest => listStartsWith sub (c :: rest) || listHasSub sub rest

/-- Python's `"sub" in s` substring test. -/
def strContains (sub s : String) : Bool := listHasSub sub.data s.data

/-- What the handler decides to do with an exception. -/
inductive UnpackOutcome where
  | continueRun
  | exitCode (n : Nat)
  | reraise
deriving DecidableEq, Repr

/-- Variant A's handlers around `unpack_all` (`textureUnpacker.py` lines
111-120): `except RuntimeError` logs and continues — for *every*
`RuntimeError`, whatever its message; `except Exception` exits 1 in
background mode and re-raises otherwise. -/
def handleUnpackExcA (e : Exc) (headless : Bool) : UnpackOutcome :=
  match e with
  | .runtimeError _ => .continueRun
  | .otherExc _ => if headless then .exitCode 1 else .reraise

/-- Variant B's handlers around `unpack_all` (`textureUnpacker2.py` lines
84-98): a `RuntimeError` whose message contains `"Nothing packed"` is
benign (the packed count is zeroed and the flow continues); any other
`RuntimeError` is re-raised from inside the `except RuntimeError` block —
in *both* modes, since the re-raise escapes the surrounding `try`; a
non-`RuntimeError` exception exits 1 in background mode and re-raises
otherwise. -/
def handleUnpackExcB (e : Exc) (headless : Bool) : UnpackOutcome :=
  match e with
  | .runtimeError msg =>
    if strContains "Nothing packed" msg then .continueRun else .reraise
  | .otherExc _ => if headless then .exitCode 1 else .reraise

/-! ### Filesystem model for variant B's move step

The store maps each existing file path to a filesystem identity
(`os.path.samefile` compares identities; `shutil.move` relocates an entry,
keeping its identity). -/

structure FSFiles where
  entries : List (Path × Nat)
deriving DecidableEq, Repr

/-- `os.path.exists`. -/
def fsExists (fs : FSFiles) (p : Path) : Bool :=
  fs.entries.any (fun e => e.1 == p)

/-- The filesystem identity behind a path, if the file exists. -/
def fsInode (fs : FSFiles) (p : Path) : Option Nat :=
  (fs.entries.find? (fun e => e.1 == p)).map (fun e => e.2)

/-- `os.path.samefile p q` (defined only when both files exist; the code
only calls it under `os.path.exists` checks on both paths). -/
def fsSameFile (fs : FSFiles) (p q : Path) : Bool :=
  match fsInode fs p, fsInode fs q with
  | some a, some b => a == b
  | _, _ => false

/-- `shutil.move src dst` for the guarded case the script reaches (the
destination does not exist): the entry keeps its identity under the new
path. -/
def fsMove (fs : FSFiles) (src dst : Path) : FSFiles :=
  ⟨fs.entries.map (fun e => if e.1 == src then (dst, e.2) else e)⟩

/-- Outcome of the per-asset move attempt. -/
inductive MoveOutcome where
  | movedNew
  | alreadyAtTarget
  | sourceMissing
  | collision
deriving DecidableEq, Repr

/-- Result of variant B's per-asset move attempt: the (possibly repointed)
image, the filesystem afterwards, the recorded extraction folder if its
basename lowercases to `"textures"`, the `failed_to_move` entry if any,
the increment to `moved_count`, and whether a collision warning was
printed. -/
structure MoveRes where
  img : Image
  fs : FSFiles
  outcome : MoveOutcome
  texDirRecord : Option Path
  failedEntry : Option String
  movedInc : Nat
  collisionWarned : Bool
deriving DecidableEq, Repr

/-- Variant B's move attempt for one unpacked-confirmed image
(`textureUnpacker2.py` lines 118-165): resolve the extracted absolute
path, record its folder when named `textures` (case-insensitively), fail
when the extracted file is gone, then either recognise the target as the
same file (repoint, count as handled), refuse to overwrite a different
file (collision warning, path left at the extraction copy), or move the
file and repoint. -/
def moveStep (inputDir : Path) (abspath : Path → Path) (fs : FSFiles)
    (img : Image) : MoveRes :=
  let unpackedAbs := abspath img.filepath
  let unpackedDir := dirnameL unpackedAbs
  let unpackedFilename := basenameL unpackedAbs
  let texRec := if lowerP (basenameL unpackedDir) = pstr "textures" then
    some unpackedDir else none
  if !(fsExists fs unpackedAbs) then
    ⟨img, fs, .sourceMissing, texRec,
      some (img.name ++ " (source file missing)"), 0, false⟩
  else
    let target := joinL inputDir unpackedFilename
    if fsExists fs target then
      if fsSameFile fs unpackedAbs target then
        ⟨{ img with filepath := target }, fs, .alreadyAtTarget, texRec,
          none, 1, false⟩
      else
        ⟨img, fs, .collision, texRec,
          some (img.name ++ " (target exists: " ++ String.mk unpackedFilename ++ ")"),
          0, true⟩
    else
      ⟨{ img with filepath := target }, fsMove fs unpackedAbs target,
        .movedNew, texRec, none, 1, false⟩

/-! ### Variant B's empty-`textures`-folder cleanup -/

/-- The state of one recorded extraction folder at cleanup time: whether
it still exists, its directory listing, and whether `os.rmdir` would
succeed on it (an unremovable folder makes `os.rmdir` raise, which the
`except` clause turns into a warning). -/
structure DirState where
  dexists : Bool
  entries : List String
  removable : Bool
deriving DecidableEq, Repr

/-- What the cleanup loop did to one recorded folder. -/
inductive CleanupAction where
  | removed
  | notEmptyWarning
  | couldNotRemoveWarning
  | skipped
deriving DecidableEq, Repr

/-- Variant B's cleanup of one recorded extraction folder
(`textureUnpacker2.py` lines 199-207): remove it when it exists and is
empty (a failing `os.rmdir` is caught and warned about); warn without
removing when it exists non-empty; do nothing when it no longer exists. -/
def cleanupTexDir (d : DirState) : CleanupAction :=
  if d.dexists && d.entries.isEmpty then
    if d.removable then .removed else .couldNotRemoveWarning
  else if d.dexists then .notEmptyWarning
  else .skipped

/-! ### Variant B's whole post-unpack move scan -/

/-- Accumulator for the `for img in bpy.data.images` scan of
`textureUnpacker2.py` lines 102-195. -/
structure MoveAccB where
  fs : FSFiles
  imgsOut : List Image
  movedCount : Nat
  failedToMove : List String
  stillPackedAfter : List String
  anomalousNames : List String
  processed : List String
  texDirs : List Path
deriving DecidableEq, Repr

/-- One iteration of the scan: skip images not in the inventory; classify
the rest and run the move attempt on unpacked-confirmed ones.  `texDirs`
is a set (`possible_texture_dirs.add`). -/
def moveScanStep (inputDir : Path) (inv : List String) (abspath : Path → Path)
    (acc : MoveAccB) (img : Image) : MoveAccB :=
  if img.name ∈ inv then
    match classifyImg img with
    | .unpackedConfirmed =>
      let r := moveStep inputDir abspath acc.fs img
      { acc with
        fs := r.fs
        imgsOut := acc.imgsOut ++ [r.img]
        movedCount := acc.movedCount + r.movedInc
        failedToMove := acc.failedToMove ++ r.failedEntry.toList
        processed := acc.processed ++ [img.name]
        texDirs :=
          match r.texDirRecord with
          | some d => if d ∈ acc.texDirs then acc.texDirs else acc.texDirs ++ [d]
          | none => acc.texDirs }
    | .stillPacked =>
      { acc with
        imgsOut := acc.imgsOut ++ [img]
        stillPackedAfter := acc.stillPackedAfter ++ [img.name]
        processed := acc.processed ++ [img.name] }
    | .anomalous =>
      { acc with
        imgsOut := acc.imgsOut ++ [img]
        anomalousNames := acc.anomalousNames ++ [img.name]
        processed := acc.processed ++ [img.name] }
  else { acc with imgsOut := acc.imgsOut ++ [img] }

/-- The whole move scan over the session's images. -/
def movePhaseB (inputDir : Path) (inv : List String) (abspath : Path → Path)
    (fs : FSFiles) (imgs : List Image) : MoveAccB :=
  imgs.foldl (moveScanStep inputDir inv abspath) ⟨fs, [], 0, [], [], [], [], []⟩

/-- The missing-after-unpack warnings of lines 179-184, relative to the
move scan. -/
def missingAfterB (inv : List String) (acc : MoveAccB) : List String :=
  inv.filter (fun n => !acc.processed.contains n)

/-! ### Both variants' unpack phases (inventory guard + host invocation +
reconciliation) -/

/-- How an unpack phase ends. -/
inductive RunOutcome where
  | completed
  | exited (code : Nat)
  | raised
deriving DecidableEq, Repr

/-- Observable result of an unpack phase: whether the host's bulk-unpack
operator was invoked, the per-asset warnings emitted, and how the phase
ended. -/
structure PhaseOut where
  unpackInvoked : Bool
  perAssetWarnings : List String
  outcome : RunOutcome
deriving DecidableEq, Repr

/-- Variant A's inventory of packed images (`textureUnpacker.py` line 61). -/
def inventoryImgsA (imgs : List Image) : List String :=
  (imgs.filter (fun i => i.packed)).map (fun i => i.name)

/-- Variant A's inventory of packed libraries (line 62). -/
def inventoryLibsA (libs : List LibA) : List String :=
  (libs.filter (fun l => l.packed)).map (fun l => l.name)

/-- Variant A's unpack phase (`textureUnpacker.py` lines 61-122): guard on
`total_packed_before > 0`; on success of the host operator run the
verification loop (whose still-packed entries are variant A's only
per-asset warnings); on an exception dispatch per `handleUnpackExcA` —
note the verification loop lives inside the `try`, so an exception skips
it.  `hostResult` is what `bpy.ops.file.unpack_all` did to the session's
images. -/
def unpackPhaseA (imgs : List Image) (libs : List LibA)
    (hostResult : Except Exc (List Image)) (headless : Bool) : PhaseOut :=
  let invI := inventoryImgsA imgs
  let invL := inventoryLibsA libs
  if invI.length + invL.length > 0 then
    match hostResult with
    | .ok imgs2 =>
      { unpackInvoked := true
        perAssetWarnings := (reconA imgs2 invI).stillPacked
        outcome := .completed }
    | .error e =>
      match handleUnpackExcA e headless with
      | .continueRun => { unpackInvoked := true, perAssetWarnings := [], outcome := .completed }
      | .exitCode n => { unpackInvoked := true, perAssetWarnings := [], outcome := .exited n }
      | .reraise => { unpackInvoked := true, perAssetWarnings := [], outcome := .raised }
  else { unpackInvoked := false, perAssetWarnings := [], outcome := .completed }

/-- Variant B's inventory (`textureUnpacker2.py` lines 54-69; every packed
image's name is recorded). -/
def inventoryImgsB (imgs : List Image) : List String :=
  (imgs.filter (fun i => i.packed)).map (fun i => i.name)

/-- Variant B's unpack phase (`textureUnpacker2.py` lines 72-195): guard on
`total_packed_before > 0`; on success of the host operator run the move
scan, whose per-asset warnings are the failed-to-move, still-packed,
anomalous and missing reports; a benign "Nothing packed" `RuntimeError`
zeroes the count so the move scan is skipped; other exceptions dispatch
per `handleUnpackExcB`. -/
def unpackPhaseB (inputDir : Path) (abspath : Path → Path) (fs : FSFiles)
    (imgs : List Image) (hostResult : Except Exc (List Image))
    (headless : Bool) : PhaseOut :=
  let inv := inventoryImgsB imgs
  if inv.length > 0 then
    match hostResult with
    | .ok imgs2 =>
      let acc := movePhaseB inputDir inv abspath fs imgs2
      { unpackInvoked := true
        perAssetWarnings :=
          acc.failedToMove ++ acc.stillPackedAfter ++ acc.anomalousNames ++
            missingAfterB inv acc
        outcome := .completed }
    | .error e =>
      match handleUnpackExcB e headless with
      | .continueRun => { unpackInvoked := true, perAssetWarnings := [], outcome := .completed }
      | .exitCode n => { unpackInvoked := true, perAssetWarnings := [], outcome := .exited n }
      | .reraise => { unpackInvoked := true, perAssetWarnings := [], outcome := .raised }
  else { unpackInvoked := false, perAssetWarnings := [], outcome := .completed }

/-! ### Variant A's pre-flight collision check and the host operations
that follow it -/

/-- Result of variant A's input/output collision check. -/
inductive PreflightOut where
  | proceed
  | exitedOne
  | raisedValueError
deriving DecidableEq, Repr

/-- The collision guard of `textureUnpacker.py` lines 27-37: on equal
paths, exit 1 in background mode or raise `ValueError` in the UI;
otherwise proceed. -/
def collisionCheck (fbxIn fbxOut : Path) (headless : Bool) : PreflightOut :=
  if fbxIn = fbxOut then
    (if headless then .exitedOne else .raisedValueError)
  else .proceed

/-- The host scene interactions of `remove_packed_textures`, in program
order (lines 44-50 onward). -/
inductive HostOp where
  | selectAll
  | deleteObjs
  | purgeOrphans
  | importFbx
  | unpackAll
  | exportFbx
deriving DecidableEq, Repr

/-- The host operations executed after the collision guard: none when the
guard aborted, the scene-interaction sequence otherwise. -/
def hostOpsFrom (r : PreflightOut) : List HostOp :=
  match r with
  | .proceed => [.selectAll, .deleteObjs, .purgeOrphans, .importFbx, .unpackAll, .exportFbx]
  | .exitedOne => []
  | .raisedValueError => []

/-! ### Command-line argument parsing (both variants) -/

/-- A minimal model of this `argparse` parser (single required
`-i` / `--input` taking one value): scan for the flag and its value.
`some (some v)` = flag with value, `some none` = flag at end of the
argument list (argparse: "expected one argument"), `none` = flag absent
(argparse: "the following arguments are required"). -/
def findInputArg : List String → Option (Option String)
  | [] => none
  | a :: rest =>
    if a == "-i" || a == "--input" then some rest.head?
    else findInputArg rest

/-- `parser.parse_args`: help exits with status 0; a missing required
flag or a flag without its value makes `argparse` call `parser.error`,
which exits with status 2. -/
def parseArgsInput (args : List String) : Except Nat String :=
  if args.contains "-h" || args.contains "--help" then .error 0
  else
    match findInputArg args with
    | some (some v) => .ok v
    | some none => .error 2
    | none => .error 2

deriving instance DecidableEq for Except

/-- How the argument-parsing stage of a script run ends. -/
inductive ArgPhaseOut where
  | proceed (input : String)
  | exited (code : Nat)
  | raisedSystemExit (code : Nat)
deriving DecidableEq, Repr

/-- Variant A's argument stage in a headless run (`textureUnpacker.py`
lines 172-178): `parse_args` failures raise `SystemExit` with argparse's
own status, uncaught, so the process terminates with that status. -/
def mainArgPhaseA (args : List String) : ArgPhaseOut :=
  match parseArgsInput args with
  | .ok v => .proceed v
  | .error c => .exited c

/-- Variant B's argument stage (`textureUnpacker2.py` lines 266-279):
`SystemExit` is caught; in background mode the script calls
`sys.exit(e.code)` (argparse codes are never `None` here), in UI mode it
re-raises. -/
def mainArgPhaseB (args : List String) (headless : Bool) : ArgPhaseOut :=
  match parseArgsInput args with
  | .ok v => .proceed v
  | .error c => if headless then .exited c else .raisedSystemExit c

/-! ### Claim C2: collision handling in variant B's move step -/

/-- C2.  In variant B's move step (`textureUnpacker2.py` lines 139-152),
for an unpacked-confirmed asset whose extracted file exists and whose
computed target path already holds a file: if the target is the same file
by filesystem identity, the step completes normally (no exceptional
alternative exists in its codomain), repoints the asset's in-memory path
to the target and counts it as handled, not failed; if it is a different
file, the step performs no filesystem write (never overwrites), records a
`failed_to_move` entry with a collision warning, and leaves the asset
(including its in-memory path, which resolves to the extraction-location
copy) unchanged. -/
theorem c2_move_collision_handling (inputDir : Path) (abspath : Path → Path)
    (fs : FSFiles) (img : Image)
    (hsrc : fsExists fs (abspath img.filepath) = true)
    (htgt : fsExists fs (joinL inputDir (basenameL (abspath img.filepath))) = true) :
    (fsSameFile fs (abspath img.filepath)
        (joinL inputDir (basenameL (abspath img.filepath))) = true →
      (moveStep inputDir abspath fs img).outcome = MoveOutcome.alreadyAtTarget ∧
      (moveStep inputDir abspath fs img).img.filepath =
        joinL inputDir (basenameL (abspath img.filepath)) ∧
      (moveStep inputDir abspath fs img).movedInc = 1 ∧
      (moveStep inputDir abspath fs img).failedEntry = none ∧
      (moveStep inputDir abspath fs img).fs = fs) ∧
    (fsSameFile fs (abspath img.filepath)
        (joinL inputDir (basenameL (abspath img.filepath))) = false →
      (moveStep inputDir abspath fs img).outcome = MoveOutcome.collision ∧
      (moveStep inputDir abspath fs img).fs = fs ∧
      (moveStep inputDir abspath fs img).img = img ∧
      (moveStep inputDir abspath fs img).movedInc = 0 ∧
      (moveStep inputDir abspath fs img).failedEntry =
        some (img.name ++ " (target exists: " ++
          String.mk (basenameL (abspath img.filepath)) ++ ")") ∧
      (moveStep inputDir abspath fs img).collisionWarned = true) := by
  constructor <;> intro hsame <;>
    simp [moveStep, hsrc, htgt, hsame]

/-- Witness for C2: the extracted file `/t/textures/a.png` and the target
`/in/a.png` are hardlinks (same identity 1), so the step counts the asset
as handled. -/
theorem c2_move_collision_handling_witness :
    (moveStep (pstr "/in") id
      ⟨[(pstr "/t/textures/a.png", 1), (pstr "/in/a.png", 1)]⟩
      ⟨"a", false, "FILE", pstr "/t/textures/a.png"⟩).outcome =
        MoveOutcome.alreadyAtTarget := by
  have h := c2_move_collision_handling (pstr "/in") id
    ⟨[(pstr "/t/textures/a.png", 1), (pstr "/in/a.png", 1)]⟩
    ⟨"a", false, "FILE", pstr "/t/textures/a.png"⟩ (by decide) (by decide)
  exact (h.1 (by decide)).1

/-! ### Claim C3: the `textures` extraction folder is removed exactly when
empty -/

/-- C3.  After all moves, variant B's cleanup (`textureUnpacker2.py` lines
199-207) deletes a recorded extraction folder exactly when it still
exists, is empty and `os.rmdir` succeeds; an existing non-empty folder is
left in place with a warning, and an existing empty but unremovable
folder is left in place with a warning — a folder is never
force-deleted. -/
theorem c3_cleanup_iff_empty (d : DirState) :
    (cleanupTexDir d = CleanupAction.removed ↔
      d.dexists = true ∧ d.entries = [] ∧ d.removable = true) ∧
    (d.dexists = true → d.entries ≠ [] →
      cleanupTexDir d = CleanupAction.notEmptyWarning) ∧
    (d.dexists = true → d.entries = [] → d.removable = false →
      cleanupTexDir d = CleanupAction.couldNotRemoveWarning) := by
  rcases d with ⟨de, en, rm⟩
  cases de <;> cases rm <;> cases en <;> simp [cleanupTexDir]

/-- Witness for C3: an existing empty removable folder is removed; an
existing non-empty one is only warned about. -/
theorem c3_cleanup_iff_empty_witness :
    cleanupTexDir ⟨true, [], true⟩ = CleanupAction.removed ∧
    cleanupTexDir ⟨true, ["a.png"], true⟩ = CleanupAction.notEmptyWarning := by
  constructor
  · exact (c3_cleanup_iff_empty ⟨true, [], true⟩).1.mpr (by decide)
  · exact (c3_cleanup_iff_empty ⟨true, ["a.png"], true⟩).2.1 (by decide) (by decide)

/-! ### Claim C4: dispatch of unpack-operator exceptions -/

/-- C4 counterexample.  The claim says any exception other than the
"nothing to unpack" condition is fatal.  But variant A's handler
(`textureUnpacker.py` lines 111-113) catches *every* `RuntimeError` as
benign: a headless run hit by `RuntimeError("disk full")` — whose message
does not contain `"Nothing packed"` — logs and continues instead of
exiting.  (Variant B re-raises such a `RuntimeError` in headless mode
rather than exiting 1 itself.) -/
theorem c4_counterexample :
    handleUnpackExcA (Exc.runtimeError "disk full") true =
      UnpackOutcome.continueRun ∧
    strContains "Nothing packed" "disk full" = false ∧
    handleUnpackExcB (Exc.runtimeError "disk full") true =
      UnpackOutcome.reraise := by
  decide

/-- C4 as amended.  The "nothing to unpack" `RuntimeError` is benign in
both variants.  Beyond that: variant A treats *every* `RuntimeError` from
the unpack operator as benign; variant B re-raises a `RuntimeError`
without `"Nothing packed"` in its message in both modes; and a
non-`RuntimeError` exception is fatal in both variants with the
headless/interactive split (exit 1 headless, re-raise interactive). -/
theorem c4_amended_unpack_exception_dispatch (msg : String) (headless : Bool) :
    handleUnpackExcA (Exc.runtimeError msg) headless = UnpackOutcome.continueRun ∧
    handleUnpackExcB (Exc.runtimeError msg) headless =
      (if strContains "Nothing packed" msg then UnpackOutcome.continueRun
       else UnpackOutcome.reraise) ∧
    handleUnpackExcA (Exc.otherExc msg) headless =
      (if headless then UnpackOutcome.exitCode 1 else UnpackOutcome.reraise) ∧
    handleUnpackExcB (Exc.otherExc msg) headless =
      (if headless then UnpackOutcome.exitCode 1 else UnpackOutcome.reraise) :=
  ⟨rfl, rfl, rfl, rfl⟩

/-! ### Claim C5: zero packed assets means no unpack invocation and no
per-asset warnings -/

/-- C5.  In both variants, if the pre-unpack scan finds zero packed
assets, the guard `total_packed_before > 0` (`textureUnpacker.py` line 69,
`textureUnpacker2.py` lines 74/108) keeps the host's bulk-unpack operator
uninvoked and the run emits zero per-asset warnings. -/
theorem c5_zero_packed_noop (imgs : List Image) (libs : List LibA)
    (hostA hostB : Except Exc (List Image)) (headless : Bool)
    (inputDir : Path) (abspath : Path → Path) (fs : FSFiles)
    (hi : imgs.filter (fun i => i.packed) = [])
    (hl : libs.filter (fun l => l.packed) = []) :
    unpackPhaseA imgs libs hostA headless =
      ⟨false, [], RunOutcome.completed⟩ ∧
    unpackPhaseB inputDir abspath fs imgs hostB headless =
      ⟨false, [], RunOutcome.completed⟩ := by
  have h1 : inventoryImgsA imgs = [] := by
    unfold inventoryImgsA
    rw [hi]
    rfl
  have h2 : inventoryLibsA libs = [] := by
    unfold inventoryLibsA
    rw [hl]
    rfl
  have h3 : inventoryImgsB imgs = [] := by
    unfold inventoryImgsB
    rw [hi]
    rfl
  constructor
  · simp [unpackPhaseA, h1, h2]
  · simp [unpackPhaseB, h3]

/-- Witness for C5: the empty session. -/
theorem c5_zero_packed_noop_witness :
    unpackPhaseA [] [] (Except.ok []) true =
      ⟨false, [], RunOutcome.completed⟩ ∧
    unpackPhaseB (pstr "/in") id ⟨[]⟩ [] (Except.ok []) true =
      ⟨false, [], RunOutcome.completed⟩ :=
  c5_zero_packed_noop [] [] (Except.ok []) (Except.ok []) true
    (pstr "/in") id ⟨[]⟩ (by decide) (by decide)

/-! ### Claim C6: reconciliation coverage of the inventory -/

/-- C6 counterexample.  The claim says that in *both* variants every
inventory name is reconciled — found, or explicitly reported missing or
still-packed.  In variant A, an image named "a" that was packed before
the unpack but has vanished from `bpy.data.images` afterwards is silently
skipped: the verification loop (`textureUnpacker.py` lines 96-102) has no
branch for a vanished image, so the run's reports mention it nowhere. -/
theorem c6_counterexample :
    "a" ∈ (["a"] : List String) ∧
    reconA ([] : List Image) ["a"] = ⟨[], 0, []⟩ := by
  decide

/-- C6 as amended.  In variant B every inventory name is reconciled: it is
confirmed, still-packed, anomalous, or reported missing.  In variant A, an
inventory image name is mentioned in the reports exactly when the image is
still present and is either verified-unpacked (not packed, `'FILE'`
source) or still packed; vanished images, anomalous images and packed
non-image assets are never reported. -/
theorem c6_amended_reconciliation (inv : List String) (imgs : List Image)
    (invA : List String) (imgsA : List Image) (n m : String)
    (hn : n ∈ inv) (hm : m ∈ invA) :
    (n ∈ (reconB inv imgs).confirmed ∨ n ∈ (reconB inv imgs).stillPacked ∨
     n ∈ (reconB inv imgs).anomalous ∨ n ∈ missingB inv imgs) ∧
    ((m ∈ (reconA imgsA invA).verified ∨ m ∈ (reconA imgsA invA).stillPacked) ↔
      ∃ img, lookupImg imgsA m = some img ∧
        ((!img.packed && img.source == "FILE") = true ∨ img.packed = true)) := by
  constructor
  · by_cases hex : ∃ img, img ∈ imgs ∧ img.name ∈ inv ∧ img.name = n
    · obtain ⟨img0, h1, h2, h3⟩ := hex
      rcases hcimg : classifyImg img0 with _ | _ | _
      · exact Or.inl ((reconB_confirmed_iff inv imgs n).mpr ⟨img0, h1, h2, h3, hcimg⟩)
      · exact Or.inr (Or.inl
          ((reconB_stillPacked_iff inv imgs n).mpr ⟨img0, h1, h2, h3, hcimg⟩))
      · exact Or.inr (Or.inr (Or.inl
          ((reconB_anomalous_iff inv imgs n).mpr ⟨img0, h1, h2, h3, hcimg⟩)))
    · exact Or.inr (Or.inr (Or.inr ((missingB_iff inv imgs n).mpr ⟨hn, hex⟩)))
  · rw [reconA_verified_iff, reconA_stillPacked_iff]
    constructor
    · rintro (⟨_, img, hl, hc⟩ | ⟨_, img, hl, hc⟩)
      · exact ⟨img, hl, Or.inl hc⟩
      · exact ⟨img, hl, Or.inr hc⟩
    · rintro ⟨img, hl, hc | hc⟩
      · exact Or.inl ⟨hm, img, hl, hc⟩
      · exact Or.inr ⟨hm, img, hl, hc⟩

/-- Witness for C6 as amended: in variant B a vanished image "a" is
reported missing; in variant A a still-packed image "b" is reported. -/
theorem c6_amended_reconciliation_witness :
    "a" ∈ missingB ["a"] [] ∧
    "b" ∈ (reconA [⟨"b", true, "FILE", pstr ""⟩] ["b"]).stillPacked := by
  have h := c6_amended_reconciliation ["a"] [] ["b"]
    [⟨"b", true, "FILE", pstr ""⟩] "a" "b" (by decide) (by decide)
  constructor
  · rcases h.1 with g | g | g | g
    · exact absurd g (by decide)
    · exact absurd g (by decide)
    · exact absurd g (by decide)
    · exact g
  · have hb := h.2.mpr ⟨⟨"b", true, "FILE", pstr ""⟩, by decide, Or.inr (by decide)⟩
    rcases hb with g | g
    · exact absurd g (by decide)
    · exact g

/-! ### Claim C7: variant A's derived output path -/

/-- C7.  For every input path, variant A's derived output path is the
input's directory joined with the input's base-name root plus the suffix
`_noTextures` and the output extension; the output extension is `.fbx` up
to ASCII case, and in particular for every input whose extension is not
`.fbx` case-insensitively, the output uses the forced literal `.fbx`. -/
theorem c7_output_path_derivation (p : Path) :
    deriveOutPath p =
      joinL (dirnameL p)
        ((splitextCore (basenameL p)).1 ++ pstr "_noTextures" ++ extUsed p) ∧
    basenameL (deriveOutPath p) =
      (splitextCore (basenameL p)).1 ++ pstr "_noTextures" ++ extUsed p ∧
    lowerP (extUsed p) = pstr ".fbx" ∧
    (lowerP (splitextCore (basenameL p)).2 ≠ pstr ".fbx" →
      extUsed p = pstr ".fbx") := by
  refine ⟨rfl, basenameL_deriveOut p, lowerP_extUsed p, fun h => ?_⟩
  unfold extUsed
  rw [if_neg h]

/-- Witness for C7 at the non-`.fbx` input `/assets/model.png`. -/
theorem c7_output_path_derivation_witness :
    lowerP (splitextCore (basenameL (pstr "/assets/model.png"))).2 ≠ pstr ".fbx" ∧
    extUsed (pstr "/assets/model.png") = pstr ".fbx" :=
  ⟨by decide,
    (c7_output_path_derivation (pstr "/assets/model.png")).2.2.2 (by decide)⟩

/-! ### Claim C8: equal input/output paths abort before host interaction -/

/-- C8.  If the derived output path equals the input path, variant A's
guard (`textureUnpacker.py` lines 27-37) aborts before any host scene
interaction: exit code 1 in headless mode, a raised error in interactive
mode, and none of the reset/import/unpack/export host operations run. -/
theorem c8_collision_abort (fbxIn fbxOut : Path) (headless : Bool)
    (h : fbxIn = fbxOut) :
    collisionCheck fbxIn fbxOut headless =
      (if headless then PreflightOut.exitedOne else PreflightOut.raisedValueError) ∧
    hostOpsFrom (collisionCheck fbxIn fbxOut headless) = [] := by
  unfold collisionCheck
  rw [if_pos h]
  cases headless <;> simp [hostOpsFrom]

/-- Witness for C8 at a concrete pair of equal paths in headless mode. -/
theorem c8_collision_abort_witness :
    collisionCheck (pstr "/a/x.fbx") (pstr "/a/x.fbx") true =
      PreflightOut.exitedOne ∧
    hostOpsFrom (collisionCheck (pstr "/a/x.fbx") (pstr "/a/x.fbx") true) = [] := by
  have h := c8_collision_abort (pstr "/a/x.fbx") (pstr "/a/x.fbx") true rfl
  simpa using h

/-! ### Claim C9: exit status on argument-parsing failure -/

/-- C9 counterexample.  The claim says a headless run with failed argument
parsing exits with code 1.  With no arguments at all (the required input
flag absent), `argparse` exits with status 2: variant A lets that
`SystemExit(2)` terminate the process, and variant B explicitly forwards
`e.code`, also 2. -/
theorem c9_counterexample :
    mainArgPhaseA [] = ArgPhaseOut.exited 2 ∧
    mainArgPhaseB [] true = ArgPhaseOut.exited 2 ∧
    ArgPhaseOut.exited 2 ≠ ArgPhaseOut.exited 1 := by
  decide

/-- C9 as amended.  When argument parsing fails (missing or incomplete
required input flag), the headless process of either variant terminates
with argparse's own exit status 2 — non-zero, but not 1. -/
theorem c9_amended_arg_failure_exit (args : List String)
    (h : parseArgsInput args = Except.error 2) :
    mainArgPhaseA args = ArgPhaseOut.exited 2 ∧
    mainArgPhaseB args true = ArgPhaseOut.exited 2 := by
  constructor
  · unfold mainArgPhaseA
    rw [h]
  · unfold mainArgPhaseB
    rw [h]
    rfl

/-- Witness for C9 as amended at the empty argument list. -/
theorem c9_amended_arg_failure_exit_witness :
    mainArgPhaseA [] = ArgPhaseOut.exited 2 ∧
    mainArgPhaseB [] true = ArgPhaseOut.exited 2 :=
  c9_amended_arg_failure_exit [] (by decide)

/-! ### Claim C10: the collision abort branch is unreachable -/

/-- C10.  For every input path, variant A's derived output path differs
from the input (the non-empty `_noTextures` suffix would force a splitext
extension to begin with `'_'`, impossible), so the collision guard always
proceeds: the abort branch is unreachable. -/
theorem c10_collision_branch_unreachable (p : Path) (headless : Bool) :
    (deriveOutPath p == p) = false ∧
    collisionCheck p (deriveOutPath p) headless = PreflightOut.proceed := by
  have hne := deriveOut_ne p
  constructor
  · simpa using hne
  · unfold collisionCheck
    rw [if_neg (Ne.symm hne)]

end TexUnpack
